import Mathlib

/-!
Verification development for the Ojogbon resume-tailoring application.

The Python sources are shallowly embedded as executable Lean definitions:

* `src/backend/resume_generator.py` : `extract_json_from_text`,
  `truncate_bullets_to_25_words`, the pre-network prefix of
  `generate_story_content`;
* `src/profile_manager.py` (and `src/backend/profile_manager.py`) : the
  pydantic data model, `ProfileManager.create_profile`,
  `ProfileManager.load_profile` (with the legacy education migration);
* `src/app.py` : `add_to_history`;
* `src/export_handler.py` : `ResumeExporter.export_to_txt` and
  `ResumeExporter.export_to_pdf`.

Library behaviour that the code relies on is modelled explicitly:
`json.loads` is modelled by an executable recursive-descent parser
(`json_loads`) over a `PyJson` value type (modelled subset: no floats, no
backslash-u escapes, duplicate object keys kept in order); the two regular
expressions of `extract_json_from_text` are modelled by direct
implementations of their leftmost-match semantics; the profiles directory
is modelled as an association list from file names to stored raw data.
-/

/-- Characters treated as whitespace by Python `str.strip`/`str.split`
and by the regex class backslash-s (ASCII part). -/
def isPyWS (c : Char) : Bool :=
  c = ' ' || c = '\t' || c = '\n' || c = '\r' || c = '\x0b' || c = '\x0c'

/-- Characters treated as whitespace by Python `json.loads`. -/
def isJsonWS (c : Char) : Bool :=
  c = ' ' || c = '\t' || c = '\n' || c = '\r'

/-- Python `str.strip()` (ASCII whitespace). -/
def pyStrip (s : String) : String :=
  String.mk (((s.data.dropWhile isPyWS).reverse.dropWhile isPyWS).reverse)

/-- Helper for `pySplit`: split a character list on whitespace runs,
dropping empty chunks, accumulator holds the current word reversed. -/
def pySplitAux : List Char → List Char → List (List Char)
  | acc, [] => if acc = [] then [] else [acc.reverse]
  | acc, c :: cs =>
    if isPyWS c then
      if acc = [] then pySplitAux [] cs else acc.reverse :: pySplitAux [] cs
    else pySplitAux (c :: acc) cs

/-- Python `str.split()` with no arguments. -/
def pySplit (s : String) : List String :=
  (pySplitAux [] s.data).map String.mk

/-- Decimal digit character, `Char.ofNat (48 + d)` for `d < 10`. -/
def digitChar10 (d : Nat) : Char := Char.ofNat (48 + d)

/-- Helper for `natToStr`: most-significant-first decimal digits. -/
def natToStrAux : Nat → Nat → List Char → List Char
  | 0, _, acc => acc
  | fuel + 1, n, acc =>
    if n < 10 then digitChar10 n :: acc
    else natToStrAux fuel (n / 10) (digitChar10 (n % 10) :: acc)

/-- Decimal rendering of a natural number (models Python `str` on a
non-negative `int`). -/
def natToStr (n : Nat) : String := String.mk (natToStrAux (n + 1) n [])

/-- Decimal rendering of an integer (models Python `str` on an `int`). -/
def intToStr (i : Int) : String :=
  if i < 0 then "-" ++ natToStr i.natAbs else natToStr i.toNat

/-- Value of a list of decimal digit characters, `none` when empty or when
a non-digit occurs. -/
def digitsToNat : List Char → Option Nat
  | [] => none
  | [c] => if c.isDigit then some (c.toNat - 48) else none
  | c :: cs =>
    if c.isDigit then
      (digitsToNat cs).map (fun n => (c.toNat - 48) * 10 ^ cs.length + n)
    else none

/-- Python `int(str)`: optional surrounding whitespace, optional sign,
then decimal digits (modelled subset: no underscores between digits). -/
def pyInt (s : String) : Option Int :=
  match (pyStrip s).data with
  | '+' :: ds => (digitsToNat ds).map Int.ofNat
  | '-' :: ds => (digitsToNat ds).map (fun n => -(Int.ofNat n))
  | ds => (digitsToNat ds).map Int.ofNat

/-- JSON values as returned by Python `json.loads` (modelled subset:
numbers are integers, no floats). -/
inductive PyJson where
  | null : PyJson
  | bool (b : Bool) : PyJson
  | num (n : Int) : PyJson
  | str (s : String) : PyJson
  | arr (elems : List PyJson) : PyJson
  | obj (members : List (String × PyJson)) : PyJson

/-- Decode a JSON escape character (modelled subset: no backslash-u). -/
def escChar : Char → Option Char
  | '"' => some '"'
  | '\\' => some '\\'
  | '/' => some '/'
  | 'b' => some '\x08'
  | 'f' => some '\x0c'
  | 'n' => some '\n'
  | 'r' => some '\r'
  | 't' => some '\t'
  | _ => none

/-- Parse the body of a JSON string after the opening quote; returns the
decoded characters and the remaining input after the closing quote.
Raw control characters are rejected, as by Python's strict mode. -/
def strBody : List Char → Option (List Char × List Char)
  | [] => none
  | '"' :: rest => some ([], rest)
  | '\\' :: e :: rest =>
    match escChar e with
    | some c => (strBody rest).map (fun p => (c :: p.1, p.2))
    | none => none
  | '\\' :: [] => none
  | c :: rest =>
    if c.val < 32 then none
    else (strBody rest).map (fun p => (c :: p.1, p.2))

/-- Parse a JSON number (modelled subset: integers only; a fraction or
exponent part makes the parse fail, leading zeros are rejected as in the
JSON grammar). -/
def parseNumFrom (cs : List Char) : Option (PyJson × List Char) :=
  let signed := match cs with
    | '-' :: r => (true, r)
    | _ => (false, cs)
  let ds := signed.2.takeWhile Char.isDigit
  let rest := signed.2.dropWhile Char.isDigit
  if ds = [] then none
  else if ds.head? = some '0' && ds.length ≠ 1 then none
  else
    match rest with
    | '.' :: _ => none
    | 'e' :: _ => none
    | 'E' :: _ => none
    | _ =>
      (digitsToNat ds).map (fun n =>
        (PyJson.num (if signed.1 then -(Int.ofNat n) else Int.ofNat n), rest))

/-- Does this character start a JSON value? -/
def startsVal (c : Char) : Bool :=
  c = 'n' || c = 't' || c = 'f' || c = '"' || c = '{' || c = '[' ||
    c = '-' || c.isDigit

mutual

/-- Recursive-descent JSON value parser modelling Python `json.loads`
(fuel-indexed; the callers supply enough fuel for any input). -/
def parseVal : Nat → List Char → Option (PyJson × List Char)
  | 0, _ => none
  | _ + 1, [] => none
  | fuel + 1, c :: r =>
    if startsVal c then
      if c = 'n' then
        if r.take 3 = ['u', 'l', 'l'] then some (.null, r.drop 3) else none
      else if c = 't' then
        if r.take 3 = ['r', 'u', 'e'] then some (.bool true, r.drop 3) else none
      else if c = 'f' then
        if r.take 4 = ['a', 'l', 's', 'e'] then some (.bool false, r.drop 4) else none
      else if c = '"' then
        (strBody r).map (fun p => (.str (String.mk p.1), p.2))
      else if c = '{' then
        match r.dropWhile isJsonWS with
        | '}' :: r2 => some (.obj [], r2)
        | r1 => parseMembers fuel r1
      else if c = '[' then
        match r.dropWhile isJsonWS with
        | ']' :: r2 => some (.arr [], r2)
        | r1 => parseElems fuel r1
      else parseNumFrom (c :: r)
    else none

/-- Parse the members of a JSON object after the opening brace
(non-empty case), consuming the closing brace. -/
def parseMembers : Nat → List Char → Option (PyJson × List Char)
  | 0, _ => none
  | fuel + 1, cs =>
    match cs with
    | '"' :: r =>
      match strBody r with
      | none => none
      | some (k, r1) =>
        match r1.dropWhile isJsonWS with
        | ':' :: r2 =>
          match parseVal fuel (r2.dropWhile isJsonWS) with
          | none => none
          | some (v, r3) =>
            match r3.dropWhile isJsonWS with
            | ',' :: r4 =>
              match parseMembers fuel (r4.dropWhile isJsonWS) with
              | some (.obj ms, r5) => some (.obj ((String.mk k, v) :: ms), r5)
              | _ => none
            | '}' :: r4 => some (.obj [(String.mk k, v)], r4)
            | _ => none
        | _ => none
    | _ => none

/-- Parse the elements of a JSON array after the opening bracket
(non-empty case), consuming the closing bracket. -/
def parseElems : Nat → List Char → Option (PyJson × List Char)
  | 0, _ => none
  | fuel + 1, cs =>
    match parseVal fuel cs with
    | none => none
    | some (v, r1) =>
      match r1.dropWhile isJsonWS with
      | ',' :: r2 =>
        match parseElems fuel (r2.dropWhile isJsonWS) with
        | some (.arr vs, r3) => some (.arr (v :: vs), r3)
        | _ => none
      | ']' :: r2 => some (.arr [v], r2)
      | _ => none

end

/-- Model of Python `json.loads`: parse one value surrounded by optional
whitespace, requiring the whole input to be consumed. -/
def json_loads (s : String) : Option PyJson :=
  match parseVal (s.length + 1) (s.data.dropWhile isJsonWS) with
  | some (v, rest) => if rest.dropWhile isJsonWS = [] then some v else none
  | none => none

/-- The backtick character. -/
def tick : Char := Char.ofNat 96

/-- The three-backtick code fence. -/
def fencePat : List Char := [tick, tick, tick]

/-- Drop an expected literal from the front of the input, `none` when the
input does not start with it. -/
def dropPre : List Char → List Char → Option (List Char)
  | [], cs => some cs
  | p :: ps, c :: cs => if p = c then dropPre ps cs else none
  | _ :: _, [] => none

/-- Lazy scan for the fenced-block regex: find the shortest extension of
the group such that a closing brace is followed by optional whitespace
and a closing fence; models the lazy dot-star of the fenced-block
pattern of `extract_json_from_text` under `re.DOTALL`. -/
def scanLazy : List Char → List Char → Option (List Char)
  | _, [] => none
  | acc, c :: rest =>
    if c = '}' ∧ fencePat.isPrefixOf (rest.dropWhile isPyWS) = true then
      some (acc ++ ['}'])
    else scanLazy (acc ++ [c]) rest

/-- After the fence and optional tag: whitespace, then the
lazily-matched braced group of the fenced-block regex. -/
def fenceBody (r : List Char) : Option (List Char) :=
  match r.dropWhile isPyWS with
  | c :: rest =>
    if c = '{' then (scanLazy [] rest).map (fun g => '{' :: g) else none
  | [] => none

/-- Attempt to match the fenced-code-block pattern at the current
position (the whole regex anchored here): an opening fence, an optional
`json` tag (tried greedily, with backtracking to the empty alternative),
whitespace, then the lazily-matched braced group. -/
def matchFenceAt (cs : List Char) : Option (List Char) :=
  match dropPre fencePat cs with
  | none => none
  | some r1 =>
    match dropPre ['j', 's', 'o', 'n'] r1 with
    | some r2 =>
      match fenceBody r2 with
      | some g => some g
      | none => fenceBody r1
    | none => fenceBody r1

/-- Leftmost match of the fenced-code-block regex: try each start
position from the left, as `re.search` does. -/
def searchFence : List Char → Option (List Char)
  | [] => none
  | c :: rest =>
    match matchFenceAt (c :: rest) with
    | some g => some g
    | none => searchFence rest

/-- Index of the first occurrence of a character. -/
def idxOf? (ch : Char) : List Char → Option Nat
  | [] => none
  | c :: r => if c = ch then some 0 else (idxOf? ch r).map (· + 1)

/-- Leftmost match of the greedy regex `\{.*\}` under `re.DOTALL`: the
substring from the first opening brace to the last closing brace. -/
def searchBraces (cs : List Char) : Option (List Char) :=
  match idxOf? '{' cs with
  | none => none
  | some i =>
    match idxOf? '}' cs.reverse with
    | none => none
    | some k =>
      let j := cs.length - 1 - k
      if i < j then some ((cs.drop i).take (j - i + 1)) else none

/-- Python `text[:n]` on a string (first `n` code points). -/
def takeFirst (n : Nat) (s : String) : String := String.mk (s.data.take n)

/-- `extract_json_from_text` from `src/backend/resume_generator.py`:
try `json.loads` on the whole text; on failure try the fenced code block
regex and parse its group; on failure try the first-to-last-brace regex
and parse its match; on failure raise `ValueError` carrying the first
200 characters of the text. -/
def extract_json_from_text (text : String) : Except String PyJson :=
  match json_loads text with
  | some v => .ok v
  | none =>
    match (searchFence text.data).bind (fun g => json_loads (String.mk g)) with
    | some v => .ok v
    | none =>
      match (searchBraces text.data).bind (fun g => json_loads (String.mk g)) with
      | some v => .ok v
      | none =>
        .error ("Could not extract valid JSON from response: " ++
          takeFirst 200 text ++ "...")

/-- `truncate_bullets_to_25_words` from `src/backend/resume_generator.py`:
each bullet with more than 25 whitespace-separated words is replaced by
its first 25 words joined by single spaces followed by an ellipsis. -/
def truncate_bullets_to_25_words : List String → List String
  | [] => []
  | bullet :: rest =>
    let words := pySplit bullet
    (if words.length > 25 then
      String.intercalate " " (words.take 25) ++ "..."
    else bullet) :: truncate_bullets_to_25_words rest

/-- Outcome of the pre-network prefix of
`ResumeGenerator.generate_story_content`: return the empty dict, raise a
`ValueError`, or reach the generation-service call. -/
inductive StoryStep where
  | returnsEmpty : StoryStep
  | raisesError (msg : String) : StoryStep
  | callsApi : StoryStep
deriving DecidableEq

/-- The pre-network prefix of `generate_story_content` from
`src/backend/resume_generator.py`: early empty return when no output is
requested, then the two precondition checks (Python falsiness of a
string is equality with the empty string), then the service call. -/
def generate_story_content_entry (my_story job_description : String)
    (include_why include_cover_letter : Bool) : StoryStep :=
  if include_why = false ∧ include_cover_letter = false then .returnsEmpty
  else if my_story = "" ∨ pyStrip my_story = "" then
    .raisesError "Please add content to 'My Story' in your profile before generating story-based responses."
  else if job_description = "" ∨ pyStrip job_description = "" then
    .raisesError "A job description is required to tailor story-based responses."
  else .callsApi

/-- `Education` pydantic model from `src/profile_manager.py`. -/
structure Education where
  degree : String
  institution : String
  location : String
  start_date : String
  end_date : String
  gpa : Option String
  relevant_coursework : List String
  achievements : List String
deriving DecidableEq

/-- `Experience` pydantic model from `src/profile_manager.py`. -/
structure Experience where
  title : String
  company : String
  location : String
  start_date : String
  end_date : String
  description : List String
  skills_used : List String
deriving DecidableEq

/-- `Project` pydantic model from `src/profile_manager.py`. -/
structure Project where
  name : String
  description : String
  technologies : List String
  achievements : List String
  url : Option String
deriving DecidableEq

/-- `UserProfile` pydantic model from `src/profile_manager.py`
(dicts modelled as ordered association lists). -/
structure UserProfile where
  personal_info : List (String × String)
  summary : String
  my_story : String
  education : List Education
  experience : List Experience
  projects : List Project
  skills : List (String × List String)
  certifications : List String
  awards : List String
deriving DecidableEq

/-- Default `personal_info` dict of `UserProfile`. -/
def defaultPersonalInfo : List (String × String) :=
  [("name", ""), ("email", ""), ("phone", ""), ("linkedin", ""),
   ("github", ""), ("portfolio", ""), ("location", "")]

/-- Default `skills` dict of `UserProfile`. -/
def defaultSkills : List (String × List String) :=
  [("technical", []), ("languages", []), ("tools", []), ("soft_skills", [])]

/-- Raw (JSON-dict) form of an education entry as read from disk; `none`
models an absent key, so `gpa : Option (Option String)` distinguishes an
absent key from a stored null. -/
structure RawEducation where
  degree : Option String
  institution : Option String
  location : Option String
  start_date : Option String
  end_date : Option String
  graduation_date : Option String
  gpa : Option (Option String)
  relevant_coursework : Option (List String)
  achievements : Option (List String)
deriving DecidableEq

/-- Raw (JSON-dict) form of an experience entry. -/
structure RawExperience where
  title : Option String
  company : Option String
  location : Option String
  start_date : Option String
  end_date : Option String
  description : Option (List String)
  skills_used : Option (List String)
deriving DecidableEq

/-- Raw (JSON-dict) form of a project entry. -/
structure RawProject where
  name : Option String
  description : Option String
  technologies : Option (List String)
  achievements : Option (List String)
  url : Option (Option String)
deriving DecidableEq

/-- Raw (JSON-dict) form of a stored profile file. -/
structure RawProfile where
  personal_info : Option (List (String × String))
  summary : Option String
  my_story : Option String
  education : Option (List RawEducation)
  experience : Option (List RawExperience)
  projects : Option (List RawProject)
  skills : Option (List (String × List String))
  certifications : Option (List String)
  awards : Option (List String)
deriving DecidableEq

/-- `model_dump` of an `Education` (every key present). -/
def Education.dump (e : Education) : RawEducation :=
  { degree := some e.degree, institution := some e.institution,
    location := some e.location, start_date := some e.start_date,
    end_date := some e.end_date, graduation_date := none,
    gpa := some e.gpa, relevant_coursework := some e.relevant_coursework,
    achievements := some e.achievements }

/-- `model_dump` of an `Experience`. -/
def Experience.dump (e : Experience) : RawExperience :=
  { title := some e.title, company := some e.company,
    location := some e.location, start_date := some e.start_date,
    end_date := some e.end_date, description := some e.description,
    skills_used := some e.skills_used }

/-- `model_dump` of a `Project`. -/
def Project.dump (p : Project) : RawProject :=
  { name := some p.name, description := some p.description,
    technologies := some p.technologies, achievements := some p.achievements,
    url := some p.url }

/-- `model_dump` of a `UserProfile`, as written by `create_profile`. -/
def dumpProfile (p : UserProfile) : RawProfile :=
  { personal_info := some p.personal_info, summary := some p.summary,
    my_story := some p.my_story,
    education := some (p.education.map Education.dump),
    experience := some (p.experience.map Experience.dump),
    projects := some (p.projects.map Project.dump),
    skills := some p.skills, certifications := some p.certifications,
    awards := some p.awards }

/-- Option-valued map over a list, failing when any element fails;
models pydantic validation of a list field. -/
def optMapList (g : β → Option α) : List β → Option (List α)
  | [] => some []
  | b :: bs =>
    match g b with
    | none => none
    | some a => (optMapList g bs).map (fun l => a :: l)

/-- pydantic validation of a raw education dict: `degree`,
`institution`, `start_date` and `end_date` are required, the remaining
fields take their declared defaults when absent. -/
def RawEducation.validate (r : RawEducation) : Option Education :=
  match r.degree, r.institution, r.start_date, r.end_date with
  | some d, some i, some sd, some ed =>
    some { degree := d, institution := i, location := r.location.getD "",
           start_date := sd, end_date := ed, gpa := r.gpa.getD none,
           relevant_coursework := r.relevant_coursework.getD [],
           achievements := r.achievements.getD [] }
  | _, _, _, _ => none

/-- pydantic validation of a raw experience dict. -/
def RawExperience.validate (r : RawExperience) : Option Experience :=
  match r.title, r.company, r.start_date, r.end_date, r.description with
  | some t, some c, some sd, some ed, some desc =>
    some { title := t, company := c, location := r.location.getD "",
           start_date := sd, end_date := ed, description := desc,
           skills_used := r.skills_used.getD [] }
  | _, _, _, _, _ => none

/-- pydantic validation of a raw project dict. -/
def RawProject.validate (r : RawProject) : Option Project :=
  match r.name, r.description, r.technologies, r.achievements with
  | some n, some d, some t, some a =>
    some { name := n, description := d, technologies := t,
           achievements := a, url := r.url.getD none }
  | _, _, _, _ => none

/-- pydantic validation of a whole raw profile dict,
`UserProfile(**data)`. -/
def RawProfile.validate (r : RawProfile) : Option UserProfile :=
  match optMapList RawEducation.validate (r.education.getD []),
        optMapList RawExperience.validate (r.experience.getD []),
        optMapList RawProject.validate (r.projects.getD []) with
  | some edus, some exps, some projs =>
    some { personal_info := r.personal_info.getD defaultPersonalInfo,
           summary := r.summary.getD "", my_story := r.my_story.getD "",
           education := edus, experience := exps, projects := projs,
           skills := r.skills.getD defaultSkills,
           certifications := r.certifications.getD [],
           awards := r.awards.getD [] }
  | _, _, _ => none

/-- The legacy-format migration performed on each education dict by
`ProfileManager.load_profile`: when `graduation_date` is present and
`start_date` absent, and the date is a truthy string of exactly two
whitespace-separated tokens, estimate the start date four years earlier
(falling back to `Sep 2020` when the year is not an integer); otherwise
leave the dict unchanged. -/
def migrateEducation (r : RawEducation) : RawEducation :=
  match r.graduation_date, r.start_date with
  | some g, none =>
    if g ≠ "" ∧ (pySplit g).length = 2 then
      match pySplit g with
      | [m, y] =>
        match pyInt y with
        | some yi =>
          { r with start_date := some (m ++ " " ++ intToStr (yi - 4)),
                   end_date := some g, graduation_date := none }
        | none =>
          { r with start_date := some "Sep 2020",
                   end_date := some g, graduation_date := none }
      | _ => r
    else r
  | _, _ => r

/-- The education migration applied to a whole raw profile (the loop in
`load_profile` over `data['education']` when that key is present). -/
def migrateProfile (r : RawProfile) : RawProfile :=
  { r with education := r.education.map (List.map migrateEducation) }

/-- The profiles directory, modelled as an association list from file
names to stored raw profile dicts (most recent write first). -/
def ProfileStore := List (String × RawProfile)

/-- First-match lookup in the store (the file most recently written
under a name). -/
def storeGet : ProfileStore → String → Option RawProfile
  | [], _ => none
  | (k, v) :: rest, key => if k = key then some v else storeGet rest key

/-- `Path.exists` for a stored file name. -/
def hasKey (st : ProfileStore) (k : String) : Bool := (storeGet st k).isSome

/-- Writing a file: the new content shadows any previous content under
the same name. -/
def insertStore (st : ProfileStore) (k : String) (v : RawProfile) : ProfileStore :=
  (k, v) :: st

/-- The profile-name cleaning in `create_profile`: strip, collapse
whitespace runs to single spaces, remove every dot. -/
def cleanName (s : String) : String :=
  String.mk ((String.intercalate " " (pySplit (pyStrip s))).data.filter
    (fun c => c ≠ '.'))

/-- The versioned profile name `clean_vN`. -/
def verName (clean : String) (v : Nat) : String :=
  clean ++ "_v" ++ natToStr v

/-- The auto-versioning loop of `create_profile`: starting at version 2,
return the first version whose file does not exist (fuel-indexed; the
caller supplies more fuel than there are stored files, so the loop
always finds a free version in reality). -/
def findFreeVersion (st : ProfileStore) (clean : String) : Nat → Nat → Option Nat
  | 0, _ => none
  | fuel + 1, v =>
    if hasKey st (verName clean v ++ ".json") then
      findFreeVersion st clean fuel (v + 1)
    else some v

/-- `ProfileManager.create_profile` from `src/profile_manager.py`:
clean the requested name; when the file exists and replacement was not
requested, fall back to the first free `_vN` name; write the dumped
profile and return the new store together with the stored name. -/
def create_profile (st : ProfileStore) (profile_name : String)
    (p : UserProfile) (replace : Bool) : Option (ProfileStore × String) :=
  let clean := cleanName profile_name
  if hasKey st (clean ++ ".json") && !replace then
    match findFreeVersion st clean (st.length + 1) 2 with
    | none => none
    | some v =>
      let vname := verName clean v
      some (insertStore st (vname ++ ".json") (dumpProfile p), vname)
  else
    some (insertStore st (clean ++ ".json") (dumpProfile p), clean)

/-- Failure modes of `load_profile`: the `FileNotFoundError` carrying
the requested name, or a pydantic `ValidationError`. -/
inductive LoadErr where
  | notFound (name : String) : LoadErr
  | validationError : LoadErr
deriving DecidableEq

/-- Parse, migrate and validate a raw profile dict that was read from
disk. -/
def finishLoad (raw : RawProfile) : Except LoadErr UserProfile :=
  match (migrateProfile raw).validate with
  | some p => .ok p
  | none => .error .validationError

/-- `ProfileManager.load_profile` from `src/profile_manager.py`: raise
`FileNotFoundError` when the file does not exist, otherwise read it,
migrate legacy education entries and validate. -/
def load_profile (st : ProfileStore) (profile_name : String) :
    Except LoadErr UserProfile :=
  match storeGet st (profile_name ++ ".json") with
  | none => .error (.notFound profile_name)
  | some raw => finishLoad raw

/-- First backup directory containing the file, as searched by the
backend `load_profile`. -/
def findBackup : List ProfileStore → String → Option RawProfile
  | [], _ => none
  | b :: bs, k =>
    match storeGet b k with
    | some r => some r
    | none => findBackup bs k

/-- `ProfileManager.load_profile` from `src/backend/profile_manager.py`:
like the frontend version but falling back to the backup directories
before raising `FileNotFoundError`. -/
def load_profile_backend (st : ProfileStore) (backups : List ProfileStore)
    (profile_name : String) : Except LoadErr UserProfile :=
  match storeGet st (profile_name ++ ".json") with
  | some raw => finishLoad raw
  | none =>
    match findBackup backups (profile_name ++ ".json") with
    | some raw => finishLoad raw
    | none => .error (.notFound profile_name)

/-- A history entry as built by `add_to_history` in `src/app.py`
(`id` and `timestamp` are produced by `uuid`/`datetime` and passed in
here). -/
structure HistoryEntry where
  id : String
  timestamp : String
  job_description : String
  resume : PyJson
  job_title : String
  company : String

/-- The entry dict literal built by `add_to_history`, including the
`or`-defaults for `job_title` and `company`. -/
def mkHistoryEntry (id timestamp : String) (resume_data : PyJson)
    (job_description company_name job_title : String) : HistoryEntry :=
  { id := id, timestamp := timestamp, job_description := job_description,
    resume := resume_data,
    job_title := if job_title = "" then "Untitled" else job_title,
    company := if company_name = "" then "" else company_name }

/-- `add_to_history` from `src/app.py`: insert the new entry at index 0,
then keep only the first 20 entries. -/
def add_to_history (entry : HistoryEntry) (history : List HistoryEntry) :
    List HistoryEntry :=
  (entry :: history).take 20

/-- Tailored experience dict as rendered by the exporters (`title` and
`company` are accessed by subscript and therefore always present;
the other keys are read with `.get`). -/
structure ExpOut where
  title : String
  company : String
  location : Option String
  start_date : Option String
  end_date : Option String
  description : Option (List String)
deriving DecidableEq

/-- Tailored project dict as rendered by the exporters. -/
structure ProjOut where
  name : String
  description : String
  technologies : Option (List String)
  achievements : Option (List String)
  url : Option String
deriving DecidableEq

/-- Education dict as rendered by the exporters. -/
structure EduOut where
  degree : String
  institution : String
  location : Option String
  end_date : Option String
  graduation_date : Option String
  gpa : Option String
  achievements : Option (List String)
deriving DecidableEq

/-- Skills dict as rendered by the exporters. -/
structure SkillsOut where
  technical : Option (List String)
  languages : Option (List String)
  tools : Option (List String)
deriving DecidableEq

/-- The tailored-resume dict handed to the exporters. -/
structure ResumeData where
  personal_info : List (String × String)
  summary : Option String
  experience : Option (List ExpOut)
  projects : Option (List ProjOut)
  education : Option (List EduOut)
  skills : Option SkillsOut
  certifications : Option (List String)
deriving DecidableEq

/-- `dict.get` on the personal-info dict. -/
def pget (pi : List (String × String)) (k : String) : Option String :=
  match pi with
  | [] => none
  | (k2, v) :: rest => if k2 = k then some v else pget rest k

/-- Python truthiness of an optional string (`None` and `""` falsy). -/
def truthyS (o : Option String) : Bool := o.getD "" != ""

/-- Python truthiness of an optional list (`None` and `[]` falsy); also
models `x and len(x) > 0`. -/
def truthyL (o : Option (List α)) : Bool := !(o.getD []).isEmpty

/-- Concatenated map over a list. -/
def catMap (f : α → List β) (l : List α) : List β := (l.map f).flatten

/-- Python `str.lstrip(chars)`. -/
def pyLstrip (set : List Char) (s : String) : String :=
  String.mk (s.data.dropWhile (fun c => set.contains c))

/-- Python `str.upper()` (ASCII part). -/
def pyUpper (s : String) : String := String.mk (s.data.map Char.toUpper)

/-- The string-valued-list keys of a tailored project dict
(`_tailor_projects` builds dicts with keys `name`, `description`,
`technologies`, `achievements`, `url`); a subscript access with any
other key raises `KeyError`. -/
def projGetList (p : ProjOut) : String → Option (List String)
  | "technologies" => p.technologies
  | "achievements" => p.achievements
  | _ => none

/-- The contact-info parts shared by the exporters. -/
def contactParts (personal : List (String × String)) : List String :=
  (if truthyS (pget personal "email") then [(pget personal "email").getD ""] else []) ++
  (if truthyS (pget personal "phone") then [(pget personal "phone").getD ""] else []) ++
  (if truthyS (pget personal "location") then [(pget personal "location").getD ""] else [])

/-- The experience block emitted for one entry by `export_to_txt` and
`export_to_pdf` (bulleted description, date/location line). -/
def expLines (e : ExpOut) : List String :=
  [e.title ++ " - " ++ e.company,
   e.start_date.getD "" ++ " - " ++ e.end_date.getD "" ++
     (if truthyS e.location then " | " ++ e.location.getD "" else "")] ++
  (e.description.getD []).map (fun b => "  • " ++ b)

/-- The education block emitted for one entry by `export_to_txt` and
`export_to_pdf` (note: these two renderers read the stale
`graduation_date` key, not `end_date`). -/
def eduLines (ed : EduOut) : List String :=
  [ed.degree,
   ed.institution ++
     (if truthyS ed.location then " | " ++ ed.location.getD "" else "") ++
     (if truthyS ed.graduation_date then " | " ++ ed.graduation_date.getD "" else "")] ++
  (if truthyS ed.gpa then ["GPA: " ++ ed.gpa.getD ""] else []) ++
  (if truthyL ed.achievements then
    (ed.achievements.getD []).map (fun a => "  • " ++ pyLstrip ['•', ' '] a)
  else [])

/-- The skills block emitted by `export_to_txt` and `export_to_pdf`. -/
def skillsLines (sk : SkillsOut) : List String :=
  (if truthyL sk.technical then
    ["Technical: " ++ String.intercalate ", " (sk.technical.getD [])] else []) ++
  (if truthyL sk.languages then
    ["Languages: " ++ String.intercalate ", " (sk.languages.getD [])] else []) ++
  (if truthyL sk.tools then
    ["Tools: " ++ String.intercalate ", " (sk.tools.getD [])] else [])

/-- `ResumeExporter.export_to_txt` from `src/export_handler.py`,
modelled as the list of text lines written to the file. -/
def export_to_txt (rd : ResumeData) : List String :=
  let personal := rd.personal_info
  let dash80 := String.mk (List.replicate 80 '-')
  let contactInfo := contactParts personal
  [pyUpper ((pget personal "name").getD "Your Name"),
   String.mk (List.replicate 80 '=')] ++
  (if contactInfo ≠ [] then [String.intercalate " | " contactInfo] else []) ++
  (if truthyS (pget personal "linkedin") then
    ["LinkedIn: " ++ (pget personal "linkedin").getD ""] else []) ++
  (if truthyS (pget personal "github") then
    ["GitHub: " ++ (pget personal "github").getD ""] else []) ++
  [""] ++
  (if truthyS rd.summary then
    ["PROFESSIONAL SUMMARY", dash80, rd.summary.getD "", ""] else []) ++
  (if truthyL rd.experience then
    ["PROFESSIONAL EXPERIENCE", dash80] ++
      catMap (fun e => expLines e ++ [""]) (rd.experience.getD [])
  else []) ++
  (if truthyL rd.projects then
    ["PROJECTS", dash80] ++
      catMap (fun p =>
        [p.name] ++
        (if truthyL p.technologies then
          ["Technologies: " ++ String.intercalate ", " (p.technologies.getD [])]
        else []) ++
        [p.description] ++
        (if truthyL p.achievements then
          (p.achievements.getD []).map (fun a => "  • " ++ a)
        else []) ++ [""]) (rd.projects.getD [])
  else []) ++
  (if truthyL rd.education then
    ["EDUCATION", dash80] ++ catMap (fun ed => eduLines ed ++ [""]) (rd.education.getD [])
  else []) ++
  (if rd.skills.isSome then
    ["SKILLS", dash80] ++ skillsLines (rd.skills.getD ⟨none, none, none⟩) ++ [""]
  else []) ++
  (if truthyL rd.certifications then
    ["CERTIFICATIONS", dash80] ++
      (rd.certifications.getD []).map (fun c => "• " ++ c)
  else [])

/-- The project block emitted by `export_to_pdf`: faithful to the source,
after the truthiness check on `technologies` the line is built from a
subscript access to the misspelled key `technatives`, which is never a
key of a tailored project dict and therefore raises `KeyError`. -/
def pdfProject (p : ProjOut) : Except String (List String) := do
  let techLine ←
    if truthyL p.technologies then
      match projGetList p "technatives" with
      | some ts => pure ["Technologies: " ++ String.intercalate ", " ts]
      | none => Except.error "KeyError: technatives"
    else pure []
  pure ([p.name] ++ techLine ++ [p.description] ++
    (if truthyL p.achievements then
      (p.achievements.getD []).map (fun a => "  • " ++ a)
    else []))

/-- `Except`-valued concatenated map. -/
def exceptCatMap (f : α → Except ε (List β)) : List α → Except ε (List β)
  | [] => pure []
  | a :: rest => do
    let l ← f a
    let ls ← exceptCatMap f rest
    pure (l ++ ls)

/-- `ResumeExporter.export_to_pdf` from `src/export_handler.py`,
modelled as the sequence of texts written into cells (fonts, rules and
spacing abstracted away); the result is `Except`-valued because the
project section can raise `KeyError` (see `pdfProject`). -/
def export_to_pdf (rd : ResumeData) : Except String (List String) := do
  let personal := rd.personal_info
  let links :=
    (if truthyS (pget personal "linkedin") then
      ["LinkedIn: " ++ (pget personal "linkedin").getD ""] else []) ++
    (if truthyS (pget personal "github") then
      ["GitHub: " ++ (pget personal "github").getD ""] else [])
  let headerLines :=
    [(pget personal "name").getD "Your Name",
     String.intercalate " | " (contactParts personal)] ++
    (if links ≠ [] then [String.intercalate " | " links] else [])
  let projLines ←
    if truthyL rd.projects then do
      let body ← exceptCatMap pdfProject (rd.projects.getD [])
      pure ("PROJECTS" :: body)
    else pure []
  pure (headerLines ++
    (if truthyS rd.summary then ["PROFESSIONAL SUMMARY", rd.summary.getD ""] else []) ++
    (if truthyL rd.experience then
      "PROFESSIONAL EXPERIENCE" :: catMap expLines (rd.experience.getD [])
    else []) ++
    projLines ++
    (if truthyL rd.education then
      "EDUCATION" :: catMap eduLines (rd.education.getD [])
    else []) ++
    (if rd.skills.isSome then
      "SKILLS" :: skillsLines (rd.skills.getD ⟨none, none, none⟩)
    else []) ++
    (if truthyL rd.certifications then
      "CERTIFICATIONS" :: (rd.certifications.getD []).map (fun c => "• " ++ c)
    else []))

/-- A tailored resume whose only project has a non-empty `technologies`
list, while several optional fields (summary, experience, education,
skills, certifications) are absent. -/
def resumeWithTech : ResumeData :=
  { personal_info := [("name", "Jo Doe")], summary := none,
    experience := none,
    projects := some [{ name := "Demo", description := "A demo app",
                        technologies := some ["Python"], achievements := none,
                        url := none }],
    education := none, skills := none, certifications := none }

/-- The same resume with the project's `technologies` key absent. -/
def resumeNoTech : ResumeData :=
  { resumeWithTech with
    projects := some [{ name := "Demo", description := "A demo app",
                        technologies := none, achievements := none,
                        url := none }] }

/-- An empty default profile (`ProfileManager.create_default_profile`). -/
def emptyProfile : UserProfile :=
  { personal_info := defaultPersonalInfo, summary := "", my_story := "",
    education := [], experience := [], projects := [],
    skills := defaultSkills, certifications := [], awards := [] }

/-- A 26-word bullet used as a concrete truncation input. -/
def longBullet : String := String.intercalate " " (List.replicate 26 "word")

/-- The raw legacy education dict of the C3 counterexample: a
`graduation_date` that is a single token. -/
def rawLegacyEdu : RawEducation :=
  { degree := some "BS Computer Science", institution := some "State University",
    location := none, start_date := none, end_date := none,
    graduation_date := some "2024", gpa := none,
    relevant_coursework := none, achievements := none }

/-- A stored profile containing only the legacy education entry above. -/
def rawLegacyProfile : RawProfile :=
  { personal_info := none, summary := none, my_story := none,
    education := some [rawLegacyEdu], experience := none, projects := none,
    skills := none, certifications := none, awards := none }

/-- The raw legacy education dict with the two-token date `May 2024`. -/
def rawLegacyEdu2 : RawEducation :=
  { rawLegacyEdu with graduation_date := some "May 2024" }

/-- A small concrete profile exercising every list field. -/
def sampleProfile : UserProfile :=
  { personal_info := [("name", "Ada L"), ("email", "ada@example.com")],
    summary := "Builder of tools", my_story := "I like building.",
    education := [{ degree := "BSc", institution := "Uni", location := "",
                    start_date := "Sep 2019", end_date := "May 2023",
                    gpa := some "3.8", relevant_coursework := ["Algorithms"],
                    achievements := ["Dean list"] }],
    experience := [{ title := "Dev", company := "Acme", location := "Lagos",
                     start_date := "2023", end_date := "2024",
                     description := ["Built stuff", "Shipped stuff"],
                     skills_used := ["Python"] }],
    projects := [{ name := "Tool", description := "A tool",
                   technologies := ["Lean"], achievements := ["Did it"],
                   url := none }],
    skills := [("technical", ["Python"]), ("languages", ["English"])],
    certifications := ["Cert A"], awards := ["Award B"] }

/-- Is there an opening brace followed (anywhere later) by a closing
brace? This is exactly when the greedy brace regex can match. -/
def hasBracePair : List Char → Bool
  | [] => false
  | c :: r => if c = '{' then r.contains '}' else hasBracePair r

/-- C2: `truncate_bullets_to_25_words` keeps the length and order of the
bullet list; a bullet of at most 25 words is returned unchanged, and a
longer bullet is replaced by its first 25 words joined by single spaces
followed by the ellipsis marker. -/
theorem truncate_bullets_spec (bullets : List String) :
    (truncate_bullets_to_25_words bullets).length = bullets.length ∧
    ∀ (i : Nat) (b : String), bullets[i]? = some b →
      (truncate_bullets_to_25_words bullets)[i]? =
        some (if (pySplit b).length ≤ 25 then b
              else String.intercalate " " ((pySplit b).take 25) ++ "...") := by
  induction bullets with
  | nil =>
    refine ⟨rfl, ?_⟩
    intro i b h
    simp at h
  | cons hd tl ih =>
    refine ⟨by simpa [truncate_bullets_to_25_words] using ih.1, ?_⟩
    intro i b h
    cases i with
    | zero =>
      simp at h
      subst h
      show ((if (pySplit hd).length > 25 then
          String.intercalate " " ((pySplit hd).take 25) ++ "..." else hd) ::
          truncate_bullets_to_25_words tl)[0]? = _
      by_cases hc : (pySplit hd).length ≤ 25
      · rw [if_neg (by omega), if_pos hc]
        exact List.getElem?_cons_zero
      · rw [if_pos (by omega), if_neg hc]
        exact List.getElem?_cons_zero
    | succ n =>
      rw [List.getElem?_cons_succ] at h
      show ((if (pySplit hd).length > 25 then
          String.intercalate " " ((pySplit hd).take 25) ++ "..." else hd) ::
          truncate_bullets_to_25_words tl)[n + 1]? = _
      rw [List.getElem?_cons_succ]
      exact ih.2 n b h

/-- C2 witness: a 26-word bullet in a singleton list. -/
theorem truncate_bullets_spec_witness :
    (truncate_bullets_to_25_words [longBullet]).length = 1 ∧
    (truncate_bullets_to_25_words [longBullet])[0]? =
      some (if (pySplit longBullet).length ≤ 25 then longBullet
            else String.intercalate " " ((pySplit longBullet).take 25) ++ "...") :=
  ⟨(truncate_bullets_spec [longBullet]).1,
   (truncate_bullets_spec [longBullet]).2 0 longBullet rfl⟩

/-- C4: the history never exceeds 20 entries, the appended entry sits at
index 0, and appending to a history of exactly 20 entries keeps 20
entries, evicting the oldest. -/
theorem add_to_history_cap (e : HistoryEntry) (h : List HistoryEntry) :
    (add_to_history e h).length ≤ 20 ∧
    (add_to_history e h)[0]? = some e ∧
    (h.length = 20 →
      add_to_history e h = e :: h.take 19 ∧ (add_to_history e h).length = 20) := by
  refine ⟨?_, ?_, ?_⟩
  · simp [add_to_history]
  · show ((e :: h).take (19 + 1))[0]? = some e
    rw [List.take_succ_cons]
    simp
  · intro hl
    have ht : add_to_history e h = e :: h.take 19 := by
      show (e :: h).take (19 + 1) = e :: h.take 19
      rw [List.take_succ_cons]
    refine ⟨ht, ?_⟩
    rw [ht]
    simp [hl]

/-- C4 witness: appending a 21st entry to a full history. -/
theorem add_to_history_cap_witness :
    (add_to_history (mkHistoryEntry "id1" "ts1" PyJson.null "jd" "" "")
      (List.replicate 20 (mkHistoryEntry "id0" "ts0" PyJson.null "" "" ""))).length = 20 ∧
    (add_to_history (mkHistoryEntry "id1" "ts1" PyJson.null "jd" "" "")
      (List.replicate 20 (mkHistoryEntry "id0" "ts0" PyJson.null "" "" "")))[0]? =
      some (mkHistoryEntry "id1" "ts1" PyJson.null "jd" "" "") :=
  ⟨((add_to_history_cap (mkHistoryEntry "id1" "ts1" PyJson.null "jd" "" "")
      (List.replicate 20 (mkHistoryEntry "id0" "ts0" PyJson.null "" "" ""))).2.2
      (by simp)).2,
   (add_to_history_cap (mkHistoryEntry "id1" "ts1" PyJson.null "jd" "" "")
      (List.replicate 20 (mkHistoryEntry "id0" "ts0" PyJson.null "" "" ""))).2.1⟩

/-- C7 (amended): when at least one story output is requested,
`generate_story_content` raises its `ValueError` before the service call
whenever the story is empty or whitespace-only, or (story non-blank)
the job description is empty or whitespace-only; in particular the
service is never reached in these cases. -/
theorem story_precondition (my_story jd : String) (iw icl : Bool)
    (hreq : iw = true ∨ icl = true) :
    (pyStrip my_story = "" →
      generate_story_content_entry my_story jd iw icl =
        .raisesError "Please add content to 'My Story' in your profile before generating story-based responses.") ∧
    (pyStrip my_story ≠ "" → pyStrip jd = "" →
      generate_story_content_entry my_story jd iw icl =
        .raisesError "A job description is required to tailor story-based responses.") ∧
    ((pyStrip my_story = "" ∨ pyStrip jd = "") →
      generate_story_content_entry my_story jd iw icl ≠ .callsApi) := by
  have hflag : ¬ (iw = false ∧ icl = false) := by
    rcases hreq with h | h <;> simp [h]
  have p1 : pyStrip my_story = "" →
      generate_story_content_entry my_story jd iw icl =
        .raisesError "Please add content to 'My Story' in your profile before generating story-based responses." := by
    intro hs
    unfold generate_story_content_entry
    rw [if_neg hflag, if_pos (Or.inr hs)]
  have p2 : pyStrip my_story ≠ "" → pyStrip jd = "" →
      generate_story_content_entry my_story jd iw icl =
        .raisesError "A job description is required to tailor story-based responses." := by
    intro hs hj
    have hs2 : ¬ (my_story = "" ∨ pyStrip my_story = "") := by
      rintro (h | h)
      · exact hs (by rw [h]; rfl)
      · exact hs h
    unfold generate_story_content_entry
    rw [if_neg hflag, if_neg hs2, if_pos (Or.inr hj)]
  refine ⟨p1, p2, ?_⟩
  intro hor
  by_cases hs : pyStrip my_story = ""
  · rw [p1 hs]
    intro hc
    exact StoryStep.noConfusion hc
  · rw [p2 hs (hor.resolve_left hs)]
    intro hc
    exact StoryStep.noConfusion hc

/-- C7 witness: a whitespace-only story with a request for the why
statement, and a whitespace-only job description with a request for the
cover letter. -/
theorem story_precondition_witness :
    generate_story_content_entry "   " "Engineer role" true false =
      StoryStep.raisesError "Please add content to 'My Story' in your profile before generating story-based responses." ∧
    generate_story_content_entry "I build things." "  " false true =
      StoryStep.raisesError "A job description is required to tailor story-based responses." :=
  ⟨(story_precondition "   " "Engineer role" true false (Or.inl rfl)).1 (by decide),
   (story_precondition "I build things." "  " false true (Or.inr rfl)).2.1
     (by decide) (by decide)⟩

/-- C7 counterexample: with both output flags false (their default
values), `generate_story_content` returns the empty dict without raising
any precondition error, even though the story and the job description
are both empty. -/
theorem story_no_error_when_nothing_requested :
    generate_story_content_entry "" "" false false = StoryStep.returnsEmpty ∧
    generate_story_content_entry "" "" false false ≠
      StoryStep.raisesError "Please add content to 'My Story' in your profile before generating story-based responses." := by
  constructor
  · rfl
  · intro hc
    exact StoryStep.noConfusion hc

/-- C8: `load_profile` raises the not-found failure exactly when no file
is stored under the name (frontend version), loads the stored profile
otherwise, and the backend version raises not-found when the name is
absent from the profiles directory and from every backup directory. -/
theorem load_profile_not_found (st : ProfileStore) (backups : List ProfileStore)
    (name : String) :
    (storeGet st (name ++ ".json") = none →
      load_profile st name = Except.error (LoadErr.notFound name)) ∧
    (∀ raw p, storeGet st (name ++ ".json") = some raw →
      finishLoad raw = Except.ok p → load_profile st name = Except.ok p) ∧
    (storeGet st (name ++ ".json") = none →
      (∀ b ∈ backups, storeGet b (name ++ ".json") = none) →
      load_profile_backend st backups name = Except.error (LoadErr.notFound name)) := by
  refine ⟨?_, ?_, ?_⟩
  · intro h
    unfold load_profile
    rw [h]
  · intro raw p h1 h2
    unfold load_profile
    rw [h1]
    exact h2
  · intro h1 h2
    have hb : findBackup backups (name ++ ".json") = none := by
      induction backups with
      | nil => rfl
      | cons b bs ih =>
        unfold findBackup
        rw [h2 b (by simp)]
        exact ih (fun b2 hb2 => h2 b2 (by simp [hb2]))
    unfold load_profile_backend
    rw [h1, hb]

/-- C8 witness: a missing name in empty stores, and a present name. -/
theorem load_profile_not_found_witness :
    load_profile [] "ghost" = Except.error (LoadErr.notFound "ghost") ∧
    load_profile_backend [] [] "ghost" = Except.error (LoadErr.notFound "ghost") ∧
    load_profile [("p.json", dumpProfile emptyProfile)] "p" = Except.ok emptyProfile :=
  ⟨(load_profile_not_found [] [] "ghost").1 rfl,
   (load_profile_not_found [] [] "ghost").2.2 rfl (fun b hb => absurd hb (by simp)),
   (load_profile_not_found [("p.json", dumpProfile emptyProfile)] [] "p").2.1
     (dumpProfile emptyProfile) emptyProfile (by rfl) (by rfl)⟩

/-- C9: on a tailored resume whose project carries a non-empty
`technologies` list (while other optional fields are absent),
`export_to_pdf` raises `KeyError` on the misspelled key `technatives`
instead of completing; with `technologies` absent the same renderer
completes, and `export_to_txt` renders the same record without error. -/
theorem export_pdf_technatives_keyerror :
    export_to_pdf resumeWithTech = Except.error "KeyError: technatives" ∧
    (export_to_pdf resumeNoTech).isOk = true ∧
    "Demo" ∈ export_to_txt resumeWithTech := by
  refine ⟨rfl, rfl, ?_⟩
  decide

/-- C3 counterexample: for a `graduation_date` that is not exactly two
space-separated tokens the migration is skipped entirely, so `end_date`
is never set to the original string and `load_profile` fails pydantic
validation (missing `start_date`/`end_date`) instead of loading. -/
theorem load_legacy_one_token_crashes :
    load_profile [("legacy.json", rawLegacyProfile)] "legacy" =
      Except.error LoadErr.validationError ∧
    (migrateEducation rawLegacyEdu).end_date = none := by
  constructor
  · rfl
  · rfl

/-- C3 (amended): with `graduation_date` present and `start_date`
absent, a two-token date with an integer year is migrated to a start
date four years earlier (so `May 2024` yields `May 2020`), and a
two-token date whose year does not parse keeps the original string in
`end_date` with the fallback start date `Sep 2020`. -/
theorem migrate_legacy_education (r : RawEducation) (m y : String) (yi : Int)
    (hg : r.graduation_date = some (m ++ " " ++ y))
    (hs : r.start_date = none)
    (hsplit : pySplit (m ++ " " ++ y) = [m, y])
    (hne : m ++ " " ++ y ≠ "") :
    (pyInt y = some yi →
      migrateEducation r =
        { r with start_date := some (m ++ " " ++ intToStr (yi - 4)),
                 end_date := some (m ++ " " ++ y), graduation_date := none }) ∧
    (pyInt y = none →
      migrateEducation r =
        { r with start_date := some "Sep 2020",
                 end_date := some (m ++ " " ++ y), graduation_date := none }) := by
  have hcond : (m ++ " " ++ y ≠ "" ∧ (pySplit (m ++ " " ++ y)).length = 2) := by
    refine ⟨hne, ?_⟩
    rw [hsplit]
    rfl
  constructor
  · intro hint
    unfold migrateEducation
    simp only [hg, hs]
    rw [if_pos hcond]
    simp only [hsplit, hint]
  · intro hint
    unfold migrateEducation
    simp only [hg, hs]
    rw [if_pos hcond]
    simp only [hsplit, hint]

/-- C3 witness: `May 2024` migrates to start `May 2020` and preserved
end `May 2024`. -/
theorem migrate_legacy_education_witness :
    migrateEducation rawLegacyEdu2 =
      { rawLegacyEdu2 with start_date := some "May 2020",
                           end_date := some "May 2024",
                           graduation_date := none } := by
  have h := (migrate_legacy_education rawLegacyEdu2 "May" "2024" 2024
    (by rfl) (by rfl) (by rfl) (by decide)).1 (by rfl)
  rw [h]
  rfl

/-- Per-entry round-trip: validating a dumped education entry restores
it. -/
theorem education_validate_dump (e : Education) :
    (Education.dump e).validate = some e := rfl

/-- Per-entry round-trip for experience entries. -/
theorem experience_validate_dump (e : Experience) :
    (Experience.dump e).validate = some e := rfl

/-- Per-entry round-trip for project entries. -/
theorem project_validate_dump (p : Project) :
    (Project.dump p).validate = some p := rfl

/-- The legacy migration leaves a freshly dumped education entry
unchanged (its `graduation_date` key is absent). -/
theorem migrate_dump (e : Education) :
    migrateEducation (Education.dump e) = Education.dump e := rfl

/-- `optMapList` inverts a map whose elements round-trip. -/
theorem optMapList_map (f : α → β) (g : β → Option α)
    (hrt : ∀ a, g (f a) = some a) :
    ∀ l : List α, optMapList g (l.map f) = some l := by
  intro l
  induction l with
  | nil => rfl
  | cons a rest ih =>
    rw [List.map_cons]
    unfold optMapList
    rw [hrt a, ih]
    rfl

/-- The migration is the identity on a list of dumped education
entries. -/
theorem map_migrate_dump (l : List Education) :
    (l.map Education.dump).map migrateEducation = l.map Education.dump := by
  induction l with
  | nil => rfl
  | cons e rest ih =>
    rw [List.map_cons, List.map_cons, migrate_dump, ih]

/-- Migrating and validating a freshly dumped profile restores it. -/
theorem finishLoad_dump (p : UserProfile) : finishLoad (dumpProfile p) = Except.ok p := by
  unfold finishLoad migrateProfile dumpProfile RawProfile.validate
  simp only [Option.map_some', Option.getD_some, map_migrate_dump,
    optMapList_map Education.dump RawEducation.validate education_validate_dump,
    optMapList_map Experience.dump RawExperience.validate experience_validate_dump,
    optMapList_map Project.dump RawProject.validate project_validate_dump]

/-- C5: saving a profile with `create_profile` and loading it back with
`load_profile` under the stored name yields a structurally equal
profile, every list field in its original order. -/
theorem profile_roundtrip (st : ProfileStore) (name : String) (p : UserProfile)
    (replace : Bool) (st2 : ProfileStore) (stored : String)
    (h : create_profile st name p replace = some (st2, stored)) :
    load_profile st2 stored = Except.ok p := by
  have hload : ∀ k, load_profile (insertStore st (k ++ ".json") (dumpProfile p)) k =
      Except.ok p := by
    intro k
    unfold load_profile insertStore storeGet
    rw [if_pos rfl]
    exact finishLoad_dump p
  simp only [create_profile] at h
  by_cases hc : (hasKey st (cleanName name ++ ".json") && !replace) = true
  · rw [if_pos hc] at h
    cases hv : findFreeVersion st (cleanName name) (st.length + 1) 2 with
    | none =>
      rw [hv] at h
      exact absurd h (by simp)
    | some v =>
      rw [hv] at h
      have h2 := Option.some.inj h
      have hst : st2 = insertStore st (verName (cleanName name) v ++ ".json")
          (dumpProfile p) := (Prod.mk.injEq _ _ _ _ ▸ h2).1.symm
      have hnm : stored = verName (cleanName name) v :=
        ((Prod.mk.injEq _ _ _ _ ▸ h2).2).symm
      rw [hst, hnm]
      exact hload _
  · rw [if_neg hc] at h
    have h2 := Option.some.inj h
    have hst : st2 = insertStore st (cleanName name ++ ".json") (dumpProfile p) :=
      (Prod.mk.injEq _ _ _ _ ▸ h2).1.symm
    have hnm : stored = cleanName name := ((Prod.mk.injEq _ _ _ _ ▸ h2).2).symm
    rw [hst, hnm]
    exact hload _

/-- C5 witness: save then load `sampleProfile` in an empty store. -/
theorem profile_roundtrip_witness :
    load_profile [("Sample.json", dumpProfile sampleProfile)] "Sample" =
      Except.ok sampleProfile :=
  profile_roundtrip [] "Sample" sampleProfile false
    [("Sample.json", dumpProfile sampleProfile)] "Sample" (by rfl)

/-- The digit list built by `natToStrAux` with positive fuel is
non-empty. -/
theorem natToStrAux_ne_nil : ∀ (fuel n : Nat) (acc : List Char),
    natToStrAux (fuel + 1) n acc ≠ [] := by
  intro fuel
  induction fuel with
  | zero =>
    intro n acc
    unfold natToStrAux
    by_cases h : n < 10
    · simp [h]
    · simp [h, natToStrAux]
  | succ f ih =>
    intro n acc
    unfold natToStrAux
    by_cases h : n < 10
    · simp [h]
    · rw [if_neg h]
      exact ih _ _

/-- The decimal rendering of a natural number is non-empty. -/
theorem natToStr_length_pos (n : Nat) : 0 < (natToStr n).length :=
  List.length_pos.mpr (natToStrAux_ne_nil n n [])

/-- A versioned file name never collides with the unversioned one. -/
theorem verName_key_ne (clean : String) (v : Nat) :
    verName clean v ++ ".json" ≠ clean ++ ".json" := by
  intro h
  have hlen := congrArg String.length h
  rw [String.length_append, String.length_append] at hlen
  unfold verName at hlen
  rw [String.length_append, String.length_append] at hlen
  have hv := natToStr_length_pos v
  have h2 : "_v".length = 2 := rfl
  omega

/-- The versioning loop returns the least free version when one exists
within the supplied fuel. -/
theorem findFree_spec (st : ProfileStore) (clean : String) :
    ∀ (fuel start v : Nat), start ≤ v → v < start + fuel →
    (∀ w, start ≤ w → w < v → hasKey st (verName clean w ++ ".json") = true) →
    hasKey st (verName clean v ++ ".json") = false →
    findFreeVersion st clean fuel start = some v := by
  intro fuel
  induction fuel with
  | zero =>
    intro start v h1 h2 _ _
    exfalso
    omega
  | succ f ih =>
    intro start v h1 h2 h3 h4
    unfold findFreeVersion
    by_cases he : start = v
    · subst he
      rw [h4]
      simp
    · have hs : start < v := lt_of_le_of_ne h1 he
      rw [h3 start le_rfl hs]
      simp only [if_true]
      exact ih (start + 1) v (by omega) (by omega)
        (fun w hw1 hw2 => h3 w (by omega) hw2) h4

/-- C6: saving under an existing name without requesting replacement
stores the profile under the lowest free `_vN` suffix (so a second save
lands on `_v2` and a third on `_v3`) and leaves the existing file
unchanged. -/
theorem create_versioning (st : ProfileStore) (name : String) (p : UserProfile)
    (v : Nat)
    (hex : hasKey st (cleanName name ++ ".json") = true)
    (h2 : 2 ≤ v) (hb : v < st.length + 3)
    (hfree : hasKey st (verName (cleanName name) v ++ ".json") = false)
    (htaken : ∀ w, 2 ≤ w → w < v →
      hasKey st (verName (cleanName name) w ++ ".json") = true) :
    create_profile st name p false =
      some (insertStore st (verName (cleanName name) v ++ ".json") (dumpProfile p),
            verName (cleanName name) v) ∧
    storeGet (insertStore st (verName (cleanName name) v ++ ".json") (dumpProfile p))
      (cleanName name ++ ".json") = storeGet st (cleanName name ++ ".json") := by
  constructor
  · simp only [create_profile, hex, Bool.not_false, Bool.and_true, if_true]
    rw [findFree_spec st (cleanName name) (st.length + 1) 2 v h2 (by omega)
      htaken hfree]
  · conv_lhs => unfold insertStore storeGet
    rw [if_neg (verName_key_ne (cleanName name) v)]

/-- C6 witness: a second save under the occupied name `Alice` lands on
`Alice_v2` and the original file keeps its content. -/
theorem create_versioning_witness :
    create_profile [("Alice.json", dumpProfile emptyProfile)] "Alice"
        sampleProfile false =
      some ([("Alice_v2.json", dumpProfile sampleProfile),
             ("Alice.json", dumpProfile emptyProfile)], "Alice_v2") ∧
    storeGet [("Alice_v2.json", dumpProfile sampleProfile),
              ("Alice.json", dumpProfile emptyProfile)] "Alice.json" =
      some (dumpProfile emptyProfile) :=
  ⟨(create_versioning [("Alice.json", dumpProfile emptyProfile)] "Alice"
      sampleProfile 2 (by decide) (by omega) (by decide) (by decide)
      (fun w hw1 hw2 => absurd hw2 (by omega))).1,
   by rfl⟩

/-- The cleaned profile name contains no dot. -/
theorem cleanName_no_dot (s : String) : '.' ∉ (cleanName s).data := by
  intro h
  have h2 := (List.mem_filter.mp h).2
  simp at h2

/-- A decimal digit character is not a dot. -/
theorem digitChar10_ne_dot (d : Nat) (h : d < 10) : digitChar10 d ≠ '.' := by
  interval_cases d <;> decide

/-- No dot occurs in the digits built by `natToStrAux`. -/
theorem natToStrAux_no_dot : ∀ (fuel n : Nat) (acc : List Char),
    (∀ c ∈ acc, c ≠ '.') → ∀ c ∈ natToStrAux fuel n acc, c ≠ '.' := by
  intro fuel
  induction fuel with
  | zero =>
    intro n acc hacc c hc
    simp only [natToStrAux] at hc
    exact hacc c hc
  | succ f ih =>
    intro n acc hacc c hc
    unfold natToStrAux at hc
    by_cases h10 : n < 10
    · rw [if_pos h10] at hc
      rcases List.mem_cons.mp hc with h | h
      · subst h
        exact digitChar10_ne_dot n h10
      · exact hacc c h
    · rw [if_neg h10] at hc
      refine ih (n / 10) (digitChar10 (n % 10) :: acc) ?_ c hc
      intro c2 hc2
      rcases List.mem_cons.mp hc2 with h | h
      · subst h
        exact digitChar10_ne_dot _ (Nat.mod_lt _ (by omega))
      · exact hacc c2 h

/-- No dot occurs in the decimal rendering of a natural number. -/
theorem natToStr_no_dot (n : Nat) : '.' ∉ (natToStr n).data := by
  intro h
  exact natToStrAux_no_dot (n + 1) n [] (by intro c hc; simp at hc) '.' h rfl

/-- A versioned name built from a dot-free cleaned name is dot-free. -/
theorem verName_no_dot (clean : String) (v : Nat) (hc : '.' ∉ clean.data) :
    '.' ∉ (verName clean v).data := by
  unfold verName
  rw [String.data_append, String.data_append]
  intro h
  rcases List.mem_append.mp h with h | h
  · rcases List.mem_append.mp h with h | h
    · exact hc h
    · exact absurd h (by decide)
  · exact natToStr_no_dot v h

/-- C10: `create_profile` stores and returns the cleaned name (leading
and trailing whitespace stripped, whitespace runs collapsed, dots
removed); a name containing a dot is therefore never stored under the
requested name, and `load_profile`, which performs no cleaning, fails
for the original dotted name. -/
theorem create_clean_name (name : String) (p : UserProfile)
    (hdot : '.' ∈ name.data) :
    cleanName name ≠ name ∧
    (∀ st st2 stored, create_profile st name p false = some (st2, stored) →
      stored ≠ name) ∧
    create_profile [] name p false =
      some ([(cleanName name ++ ".json", dumpProfile p)], cleanName name) ∧
    load_profile [(cleanName name ++ ".json", dumpProfile p)] name =
      Except.error (LoadErr.notFound name) := by
  have hnd : '.' ∉ (cleanName name).data := cleanName_no_dot name
  have hne : cleanName name ≠ name := by
    intro h
    apply hnd
    rw [h]
    exact hdot
  refine ⟨hne, ?_, ?_, ?_⟩
  · intro st st2 stored h
    simp only [create_profile] at h
    by_cases hc : (hasKey st (cleanName name ++ ".json") && !false) = true
    · rw [if_pos hc] at h
      cases hv : findFreeVersion st (cleanName name) (st.length + 1) 2 with
      | none =>
        rw [hv] at h
        exact absurd h (by simp)
      | some v =>
        rw [hv] at h
        have h2 := (Prod.mk.injEq _ _ _ _ ▸ Option.some.inj h).2
        intro hname
        apply verName_no_dot (cleanName name) v hnd
        rw [h2, hname]
        exact hdot
    · rw [if_neg hc] at h
      have h2 := (Prod.mk.injEq _ _ _ _ ▸ Option.some.inj h).2
      intro hname
      exact hne (h2.trans hname)
  · simp only [create_profile]
    rw [if_neg (by simp [hasKey, storeGet])]
    rfl
  · unfold load_profile storeGet
    rw [if_neg ?_]
    · rfl
    · intro h
      have hdata := congrArg String.data h
      rw [String.data_append, String.data_append] at hdata
      exact hne (String.ext (List.append_cancel_right hdata))

/-- C10 witness: the dotted name `John.Smith`. -/
theorem create_clean_name_witness :
    cleanName "John.Smith" ≠ "John.Smith" ∧
    load_profile [(cleanName "John.Smith" ++ ".json", dumpProfile emptyProfile)]
        "John.Smith" =
      Except.error (LoadErr.notFound "John.Smith") :=
  ⟨(create_clean_name "John.Smith" emptyProfile (by decide)).1,
   (create_clean_name "John.Smith" emptyProfile (by decide)).2.2.2⟩

/-- A character that cannot start a JSON value makes the parser fail. -/
theorem parseVal_not_starts (fuel : Nat) (c : Char) (r : List Char)
    (h : startsVal c = false) : parseVal (fuel + 1) (c :: r) = none := by
  unfold parseVal
  rw [if_neg (by simp [h])]

/-- A text whose first character is a backtick is not valid JSON. -/
theorem json_loads_tick (s : String) (r : List Char) (hd : s.data = tick :: r) :
    json_loads s = none := by
  unfold json_loads
  rw [hd, List.dropWhile_cons, if_neg (by decide),
    parseVal_not_starts _ _ _ (by decide)]

/-- `dropPre` consumes an exact literal prefix. -/
theorem dropPre_append : ∀ (p r : List Char), dropPre p (p ++ r) = some r := by
  intro p
  induction p with
  | nil => intro r; rfl
  | cons c p ih =>
    intro r
    show (if c = c then dropPre p (p ++ r) else none) = some r
    rw [if_pos rfl]
    exact ih r

/-- A successful `dropPre` decomposes its input. -/
theorem dropPre_eq_some : ∀ (p cs r : List Char), dropPre p cs = some r →
    cs = p ++ r := by
  intro p
  induction p with
  | nil =>
    intro cs r h
    simp [dropPre] at h
    simp [h]
  | cons c p ih =>
    intro cs r h
    cases cs with
    | nil => exact absurd h (by simp [dropPre])
    | cons c2 cs =>
      unfold dropPre at h
      by_cases he : c = c2
      · rw [if_pos he] at h
        rw [List.cons_append, ih cs r h, he]
      · rw [if_neg he] at h
        exact absurd h (by simp)

/-- `dropWhile` distributes over an append whose left part does not
vanish. -/
theorem dropWhile_append_left (p : Char → Bool) :
    ∀ (l t : List Char), l.dropWhile p ≠ [] →
      (l ++ t).dropWhile p = l.dropWhile p ++ t := by
  intro l
  induction l with
  | nil => intro t h; exact absurd rfl h
  | cons c l ih =>
    intro t h
    by_cases hc : p c = true
    · rw [List.dropWhile_cons, if_pos hc] at h
      rw [List.cons_append, List.dropWhile_cons, if_pos hc,
        List.dropWhile_cons, if_pos hc]
      exact ih t h
    · rw [List.cons_append, List.dropWhile_cons, if_neg hc,
        List.dropWhile_cons, if_neg hc, List.cons_append]

/-- A list containing a non-matching element has a non-empty
`dropWhile` residue. -/
theorem dropWhile_ne_nil_of_mem (p : Char → Bool) (l : List Char) (x : Char)
    (hx : x ∈ l) (hpx : p x = false) : l.dropWhile p ≠ [] := by
  intro h
  rw [List.dropWhile_eq_nil_iff] at h
  rw [h x hx] at hpx
  simp at hpx

/-- The head of a `dropWhile` residue belongs to the original list. -/
theorem dropWhile_head_mem (p : Char → Bool) (l : List Char) (c : Char)
    (rest : List Char) (h : l.dropWhile p = c :: rest) : c ∈ l :=
  (List.dropWhile_suffix p).subset (h ▸ List.mem_cons_self c rest)

/-- Running the lazy scan over a backtick-free group body followed by a
closing fence yields exactly the body: no earlier closing brace can be
followed by whitespace and a fence, since the final closing brace
always intervenes. -/
theorem scanLazy_run : ∀ (mid acc : List Char), (∀ c ∈ mid, c ≠ tick) →
    scanLazy acc (mid ++ '}' :: '\n' :: fencePat) = some (acc ++ mid ++ ['}']) := by
  intro mid
  induction mid with
  | nil =>
    intro acc _
    show scanLazy acc ('}' :: '\n' :: fencePat) = some (acc ++ [] ++ ['}'])
    unfold scanLazy
    rw [if_pos (by decide)]
    simp
  | cons c mid ih =>
    intro acc hm
    show scanLazy acc (c :: (mid ++ '}' :: '\n' :: fencePat)) = _
    unfold scanLazy
    rw [if_neg ?hcond]
    · rw [ih (acc ++ [c]) (fun x hx => hm x (List.mem_cons_of_mem c hx))]
      simp
    case hcond =>
      rintro ⟨hc, hstop⟩
      have hrw : mid ++ '}' :: '\n' :: fencePat =
          (mid ++ ['}']) ++ ('\n' :: fencePat) := by simp
      rw [hrw] at hstop
      have hne2 : (mid ++ ['}']).dropWhile isPyWS ≠ [] :=
        dropWhile_ne_nil_of_mem _ _ '}' (by simp) (by decide)
      rw [dropWhile_append_left _ _ _ hne2] at hstop
      cases hdw : (mid ++ ['}']).dropWhile isPyWS with
      | nil => exact hne2 hdw
      | cons c0 rest0 =>
        rw [hdw, List.cons_append] at hstop
        have hc0 : c0 ∈ mid ++ ['}'] := dropWhile_head_mem _ _ _ _ hdw
        have hc0t : c0 ≠ tick := by
          rcases List.mem_append.mp hc0 with h | h
          · exact hm c0 (List.mem_cons_of_mem c h)
          · simp at h
            subst h
            decide
        have hbeq : (tick == c0 && [tick, tick].isPrefixOf
            (rest0 ++ '\n' :: fencePat)) = true := hstop
        simp only [Bool.and_eq_true, beq_iff_eq] at hbeq
        exact hc0t hbeq.1.symm

/-- The fenced-block matcher at the start of a fenced JSON object with a
`json` tag captures exactly the braced body. -/
theorem matchFenceAt_fenced (mid : List Char) (hm : ∀ c ∈ mid, c ≠ tick) :
    matchFenceAt (fencePat ++ 'j' :: 's' :: 'o' :: 'n' :: '\n' :: '{' ::
        (mid ++ '}' :: '\n' :: fencePat)) =
      some ('{' :: (mid ++ ['}'])) := by
  have hfb : fenceBody ('\n' :: '{' :: (mid ++ '}' :: '\n' :: fencePat)) =
      some ('{' :: (mid ++ ['}'])) := by
    unfold fenceBody
    rw [List.dropWhile_cons, if_pos (by decide), List.dropWhile_cons,
      if_neg (by decide)]
    show (if '{' = '{' then
        (scanLazy [] (mid ++ '}' :: '\n' :: fencePat)).map (fun g => '{' :: g)
      else none) = _
    rw [if_pos rfl, scanLazy_run mid [] hm]
    rfl
  have hj : dropPre ['j', 's', 'o', 'n']
      ('j' :: 's' :: 'o' :: 'n' :: '\n' :: '{' :: (mid ++ '}' :: '\n' :: fencePat)) =
      some ('\n' :: '{' :: (mid ++ '}' :: '\n' :: fencePat)) := by
    simp [dropPre]
  unfold matchFenceAt
  simp only [dropPre_append, hj, hfb]

/-- A successful anchored match makes `re.search` return its group. -/
theorem searchFence_cons_some (c : Char) (rest g : List Char)
    (h : matchFenceAt (c :: rest) = some g) : searchFence (c :: rest) = some g := by
  unfold searchFence
  rw [h]

/-- The fence matcher fails on a backtick-free input. -/
theorem matchFenceAt_no_tick (cs : List Char) (h : ∀ c ∈ cs, c ≠ tick) :
    matchFenceAt cs = none := by
  unfold matchFenceAt
  cases cs with
  | nil => rfl
  | cons c rest =>
    have hd : dropPre fencePat (c :: rest) = none := by
      show (if tick = c then dropPre [tick, tick] rest else none) = none
      rw [if_neg (fun hh => h c (List.mem_cons_self c rest) hh.symm)]
    rw [hd]

/-- The fenced-block search fails on a backtick-free text. -/
theorem searchFence_no_tick : ∀ (cs : List Char), (∀ c ∈ cs, c ≠ tick) →
    searchFence cs = none := by
  intro cs
  induction cs with
  | nil => intro _; rfl
  | cons c rest ih =>
    intro h
    unfold searchFence
    rw [matchFenceAt_no_tick _ h]
    exact ih (fun x hx => h x (List.mem_cons_of_mem c hx))

/-- A closing brace after an opening brace witnesses a brace pair. -/
theorem hBP_intro : ∀ (a b : List Char), '}' ∈ b →
    hasBracePair (a ++ '{' :: b) = true := by
  intro a
  induction a with
  | nil =>
    intro b hb
    show hasBracePair ('{' :: b) = true
    unfold hasBracePair
    rw [if_pos rfl]
    exact List.elem_eq_true_of_mem hb
  | cons c a ih =>
    intro b hb
    show hasBracePair (c :: (a ++ '{' :: b)) = true
    unfold hasBracePair
    by_cases hc : c = '{'
    · rw [if_pos hc]
      exact List.elem_eq_true_of_mem
        (List.mem_append.mpr (Or.inr (List.mem_cons_of_mem _ hb)))
    · rw [if_neg hc]
      exact ih b hb

/-- A brace pair contains a closing brace. -/
theorem hBP_mem : ∀ (cs : List Char), hasBracePair cs = true → '}' ∈ cs := by
  intro cs
  induction cs with
  | nil => intro h; simp [hasBracePair] at h
  | cons c r ih =>
    intro h
    unfold hasBracePair at h
    by_cases hc : c = '{'
    · rw [if_pos hc] at h
      exact List.mem_cons_of_mem c (List.mem_of_elem_eq_true h)
    · rw [if_neg hc] at h
      exact List.mem_cons_of_mem c (ih h)

/-- Absence of a brace pair is preserved by dropping the head. -/
theorem hBP_tail (c : Char) (r : List Char) (h : hasBracePair (c :: r) = false) :
    hasBracePair r = false := by
  by_cases hb : hasBracePair r = true
  · exfalso
    unfold hasBracePair at h
    by_cases hc : c = '{'
    · rw [if_pos hc] at h
      have hm : r.contains '}' = true := List.elem_eq_true_of_mem (hBP_mem r hb)
      rw [hm] at h
      simp at h
    · rw [if_neg hc, hb] at h
      simp at h
  · simp only [Bool.not_eq_true] at hb
    exact hb

/-- A successful lazy scan saw a closing brace. -/
theorem scanLazy_mem : ∀ (r acc g : List Char), scanLazy acc r = some g →
    '}' ∈ r := by
  intro r
  induction r with
  | nil => intro acc g h; simp [scanLazy] at h
  | cons c rest ih =>
    intro acc g h
    unfold scanLazy at h
    by_cases hc : (c = '}' ∧ fencePat.isPrefixOf (rest.dropWhile isPyWS) = true)
    · exact List.mem_cons.mpr (Or.inl hc.1.symm)
    · rw [if_neg hc] at h
      exact List.mem_cons_of_mem c (ih (acc ++ [c]) g h)

/-- A successful `fenceBody` exposes a brace pair in its input. -/
theorem fenceBody_pair (r g : List Char) (h : fenceBody r = some g) :
    ∃ a b, r = a ++ '{' :: b ∧ '}' ∈ b := by
  unfold fenceBody at h
  cases hdw : r.dropWhile isPyWS with
  | nil => rw [hdw] at h; simp at h
  | cons c0 rest =>
    rw [hdw] at h
    have h2 : (if c0 = '{' then
        (scanLazy [] rest).map (fun g => '{' :: g) else none) = some g := h
    by_cases hc : c0 = '{'
    · rw [if_pos hc] at h2
      cases hs : scanLazy [] rest with
      | none => rw [hs] at h2; simp at h2
      | some g2 =>
        obtain ⟨pre, hpre⟩ := List.dropWhile_suffix (l := r) isPyWS
        rw [hdw] at hpre
        refine ⟨pre, rest, ?_, scanLazy_mem rest [] g2 hs⟩
        rw [← hpre, hc]
    · rw [if_neg hc] at h2
      simp at h2

/-- A successful fence match exposes a brace pair in the input. -/
theorem matchFenceAt_pair (cs g : List Char) (h : matchFenceAt cs = some g) :
    hasBracePair cs = true := by
  unfold matchFenceAt at h
  cases hdp : dropPre fencePat cs with
  | none => rw [hdp] at h; simp at h
  | some r1 =>
    rw [hdp] at h
    have hcs : cs = fencePat ++ r1 := dropPre_eq_some _ _ _ hdp
    have hr1 : ∀ g2, fenceBody r1 = some g2 → hasBracePair cs = true := by
      intro g2 hfb
      obtain ⟨a, b, hab, hb⟩ := fenceBody_pair r1 g2 hfb
      rw [hcs, hab, ← List.append_assoc]
      exact hBP_intro _ b hb
    have h3 : (match dropPre ['j', 's', 'o', 'n'] r1 with
        | some r2 =>
          match fenceBody r2 with
          | some g => some g
          | none => fenceBody r1
        | none => fenceBody r1) = some g := h
    cases hdp2 : dropPre ['j', 's', 'o', 'n'] r1 with
    | none =>
      rw [hdp2] at h3
      exact hr1 g h3
    | some r2 =>
      rw [hdp2] at h3
      have hr2 : r1 = ['j', 's', 'o', 'n'] ++ r2 := dropPre_eq_some _ _ _ hdp2
      cases hfb2 : fenceBody r2 with
      | some g2 =>
        obtain ⟨a, b, hab, hb⟩ := fenceBody_pair r2 g2 hfb2
        rw [hcs, hr2, hab, ← List.append_assoc, ← List.append_assoc]
        exact hBP_intro _ b hb
      | none =>
        have h4 : (match fenceBody r2 with
            | some g => some g
            | none => fenceBody r1) = some g := h3
        rw [hfb2] at h4
        exact hr1 g h4

/-- Without a brace pair the fenced-block search fails. -/
theorem searchFence_hBP : ∀ (cs : List Char), hasBracePair cs = false →
    searchFence cs = none := by
  intro cs
  induction cs with
  | nil => intro _; rfl
  | cons c rest ih =>
    intro h
    unfold searchFence
    cases hm : matchFenceAt (c :: rest) with
    | some g =>
      rw [matchFenceAt_pair _ _ hm] at h
      simp at h
    | none =>
      exact ih (hBP_tail c rest h)

/-- `idxOf?` fails when the character is absent. -/
theorem idxOf?_not_mem (ch : Char) : ∀ (cs : List Char), ch ∉ cs →
    idxOf? ch cs = none := by
  intro cs
  induction cs with
  | nil => intro _; rfl
  | cons c rest ih =>
    intro h
    unfold idxOf?
    rw [if_neg (fun hc => h (List.mem_cons.mpr (Or.inl hc.symm)))]
    rw [ih (fun hm => h (List.mem_cons_of_mem c hm))]
    rfl

/-- `idxOf?` over an append whose left part misses the character. -/
theorem idxOf?_append_left (ch : Char) : ∀ (a b : List Char), ch ∉ a →
    idxOf? ch (a ++ b) = (idxOf? ch b).map (· + a.length) := by
  intro a
  induction a with
  | nil =>
    intro b _
    show idxOf? ch b = (idxOf? ch b).map (· + 0)
    cases idxOf? ch b <;> simp
  | cons c a ih =>
    intro b h
    show (if c = ch then some 0 else (idxOf? ch (a ++ b)).map (· + 1)) =
      (idxOf? ch b).map (· + (c :: a).length)
    rw [if_neg (fun hc => h (List.mem_cons.mpr (Or.inl hc.symm)))]
    rw [ih b (fun hm => h (List.mem_cons_of_mem c hm))]
    cases idxOf? ch b <;> simp [Nat.add_assoc]

/-- A successful `idxOf?` decomposes the list at the found index. -/
theorem idxOf?_decomp (ch : Char) : ∀ (cs : List Char) (i : Nat),
    idxOf? ch cs = some i → ∃ a b, cs = a ++ ch :: b ∧ a.length = i := by
  intro cs
  induction cs with
  | nil => intro i h; simp [idxOf?] at h
  | cons c rest ih =>
    intro i h
    unfold idxOf? at h
    by_cases hc : c = ch
    · rw [if_pos hc] at h
      injection h with h2
      exact ⟨[], rest, by rw [hc]; rfl, h2⟩
    · rw [if_neg hc] at h
      cases hr : idxOf? ch rest with
      | none => rw [hr] at h; simp at h
      | some i2 =>
        rw [hr] at h
        simp only [Option.map_some'] at h
        injection h with h2
        obtain ⟨a, b, hab, hlen⟩ := ih i2 hr
        refine ⟨c :: a, b, by rw [List.cons_append, hab], ?_⟩
        simp [hlen, ← h2]

/-- Without a brace pair the greedy brace search fails. -/
theorem searchBraces_hBP (cs : List Char) (h : hasBracePair cs = false) :
    searchBraces cs = none := by
  unfold searchBraces
  cases h1 : idxOf? '{' cs with
  | none => rfl
  | some i =>
    cases h2 : idxOf? '}' cs.reverse with
    | none => rfl
    | some k =>
      show (if i < cs.length - 1 - k then
          some (List.take ((cs.length - 1 - k) - i + 1) (List.drop i cs))
        else none) = none
      rw [if_neg ?_]
      intro hij
      obtain ⟨a, b, hab, hai⟩ := idxOf?_decomp '{' cs i h1
      obtain ⟨a2, b2, hab2, hak⟩ := idxOf?_decomp '}' cs.reverse k h2
      have hcs2 : cs = b2.reverse ++ '}' :: a2.reverse := by
        have hr := congrArg List.reverse hab2
        rw [List.reverse_reverse] at hr
        rw [hr]
        simp
      have hlen : cs.length = b2.length + 1 + k := by
        rw [hcs2]
        simp [hak]
        omega
      have hib : i + 1 ≤ b2.reverse.length := by
        simp only [List.length_reverse]
        omega
      have hbdrop : b = cs.drop (i + 1) := by
        rw [hab, List.drop_append_eq_append_drop,
          List.drop_eq_nil_of_le (by omega)]
        have hi1 : i + 1 - a.length = 1 := by omega
        rw [hi1]
        rfl
      have hmem : '}' ∈ b := by
        rw [hbdrop, hcs2, List.drop_append_eq_append_drop]
        have h0 : i + 1 - b2.reverse.length = 0 := by omega
        rw [h0]
        simp
      rw [hab, hBP_intro a b hmem] at h
      simp at h

/-- The greedy brace regex on prose-wrapped JSON: with brace-free prose
on both sides, the match runs from the JSON object's opening brace to
its closing brace, recovering the object exactly. -/
theorem searchBraces_wrapped (P mid Q : List Char)
    (hP1 : '{' ∉ P) (hQ2 : '}' ∉ Q) :
    searchBraces (P ++ ('{' :: (mid ++ ['}'])) ++ Q) =
      some ('{' :: (mid ++ ['}'])) := by
  have hassoc : P ++ ('{' :: (mid ++ ['}'])) ++ Q =
      P ++ (('{' :: (mid ++ ['}'])) ++ Q) := List.append_assoc P _ Q
  unfold searchBraces
  rw [hassoc, idxOf?_append_left '{' P _ hP1]
  have h1 : idxOf? '{' (('{' :: (mid ++ ['}'])) ++ Q) = some 0 := by
    show (if '{' = '{' then some 0
      else (idxOf? '{' ((mid ++ ['}']) ++ Q)).map (· + 1)) = some 0
    rw [if_pos rfl]
  rw [h1]
  simp only [Option.map_some']
  have hrev : (P ++ (('{' :: (mid ++ ['}'])) ++ Q)).reverse =
      Q.reverse ++ ('}' :: (mid.reverse ++ '{' :: P.reverse)) := by
    simp
  rw [hrev, idxOf?_append_left '}' Q.reverse _ (by simpa using hQ2)]
  have h2 : idxOf? '}' ('}' :: (mid.reverse ++ '{' :: P.reverse)) = some 0 := by
    show (if '}' = '}' then some 0
      else (idxOf? '}' (mid.reverse ++ '{' :: P.reverse)).map (· + 1)) = some 0
    rw [if_pos rfl]
  rw [h2]
  simp only [Option.map_some']
  have hlen : (P ++ (('{' :: (mid ++ ['}'])) ++ Q)).length =
      P.length + mid.length + 2 + Q.length := by
    simp
    omega
  show (if 0 + P.length <
      (P ++ (('{' :: (mid ++ ['}'])) ++ Q)).length - 1 - (0 + Q.reverse.length)
    then some (List.take
      ((P ++ (('{' :: (mid ++ ['}'])) ++ Q)).length - 1 - (0 + Q.reverse.length) -
        (0 + P.length) + 1)
      (List.drop (0 + P.length) (P ++ (('{' :: (mid ++ ['}'])) ++ Q))))
    else none) = some ('{' :: (mid ++ ['}']))
  rw [if_pos ?hlt]
  · have hdrop : List.drop (0 + P.length) (P ++ (('{' :: (mid ++ ['}'])) ++ Q)) =
        ('{' :: (mid ++ ['}'])) ++ Q := by
      rw [Nat.zero_add]
      exact List.drop_left P _
    rw [hdrop]
    have harg : (P ++ (('{' :: (mid ++ ['}'])) ++ Q)).length - 1 -
        (0 + Q.reverse.length) - (0 + P.length) + 1 = mid.length + 2 := by
      rw [hlen]
      simp only [List.length_reverse, Nat.zero_add]
      omega
    rw [harg, List.take_left' (by simp)]
  case hlt =>
    rw [hlen]
    simp only [List.length_reverse, Nat.zero_add]
    omega

/-- `json.loads` fails on any text opening with a code fence. -/
theorem json_loads_fence (s : String) (r : List Char)
    (hd : s.data = fencePat ++ r) : json_loads s = none :=
  json_loads_tick s (tick :: tick :: r) hd

/-- C1 (amended): the three extraction strategies are tried in order,
so a JSON object string (backtick-free, here the body `mid` between the
braces) is recovered identically whether fed bare, fenced in a code
block with a `json` language tag, or wrapped in brace- and
backtick-free prose; and a text without a brace-delimited substring on
which whole-text JSON parsing also fails raises the terminal
`ValueError` carrying the first 200 characters of the text. -/
theorem extract_json_strategies (mid : List Char) (pre post t : String)
    (v : PyJson)
    (hmid : ∀ c ∈ mid, c ≠ tick)
    (h1 : json_loads (String.mk ('{' :: (mid ++ ['}']))) = some v)
    (hpre : ∀ c ∈ pre.data, c ≠ '{' ∧ c ≠ '}' ∧ c ≠ tick)
    (hpost : ∀ c ∈ post.data, c ≠ '{' ∧ c ≠ '}' ∧ c ≠ tick)
    (hwrap : json_loads (pre ++ String.mk ('{' :: (mid ++ ['}'])) ++ post) = none)
    (ht1 : json_loads t = none)
    (ht2 : hasBracePair t.data = false) :
    extract_json_from_text (String.mk ('{' :: (mid ++ ['}']))) = .ok v ∧
    extract_json_from_text
      ("```json\n" ++ String.mk ('{' :: (mid ++ ['}'])) ++ "\n```") = .ok v ∧
    extract_json_from_text
      (pre ++ String.mk ('{' :: (mid ++ ['}'])) ++ post) = .ok v ∧
    extract_json_from_text t =
      .error ("Could not extract valid JSON from response: " ++
        takeFirst 200 t ++ "...") := by
  refine ⟨?_, ?_, ?_, ?_⟩
  · simp only [extract_json_from_text, h1]
  · have hdataF : ("```json\n" ++ String.mk ('{' :: (mid ++ ['}'])) ++ "\n```").data =
        fencePat ++ 'j' :: 's' :: 'o' :: 'n' :: '\n' :: '{' ::
          (mid ++ '}' :: '\n' :: fencePat) := by
      rw [String.data_append, String.data_append]
      have hA : ("```json\n").data = fencePat ++ ['j', 's', 'o', 'n', '\n'] := by
        decide
      have hB : ("\n```").data = '\n' :: fencePat := by decide
      rw [hA, hB]
      show (fencePat ++ ['j', 's', 'o', 'n', '\n']) ++ ('{' :: (mid ++ ['}'])) ++
        ('\n' :: fencePat) = _
      simp
    have hloadsF : json_loads ("```json\n" ++ String.mk ('{' :: (mid ++ ['}'])) ++
        "\n```") = none :=
      json_loads_fence _ _ hdataF
    have hsf : searchFence ("```json\n" ++ String.mk ('{' :: (mid ++ ['}'])) ++
        "\n```").data = some ('{' :: (mid ++ ['}'])) := by
      rw [hdataF]
      exact searchFence_cons_some tick _ _ (matchFenceAt_fenced mid hmid)
    simp only [extract_json_from_text, hloadsF, hsf, Option.some_bind, h1]
  · have hWdata : (pre ++ String.mk ('{' :: (mid ++ ['}'])) ++ post).data =
        pre.data ++ ('{' :: (mid ++ ['}'])) ++ post.data := by
      rw [String.data_append, String.data_append]
    have hsfW : searchFence (pre ++ String.mk ('{' :: (mid ++ ['}'])) ++
        post).data = none := by
      rw [hWdata]
      apply searchFence_no_tick
      intro c hc
      rcases List.mem_append.mp hc with hc | hc
      · rcases List.mem_append.mp hc with hc | hc
        · exact (hpre c hc).2.2
        · rcases List.mem_cons.mp hc with hc | hc
          · subst hc
            decide
          · rcases List.mem_append.mp hc with hc | hc
            · exact hmid c hc
            · simp at hc
              subst hc
              decide
      · exact (hpost c hc).2.2
    have hsbW : searchBraces (pre ++ String.mk ('{' :: (mid ++ ['}'])) ++
        post).data = some ('{' :: (mid ++ ['}'])) := by
      rw [hWdata]
      exact searchBraces_wrapped pre.data mid post.data
        (fun h => (hpre '{' h).1 rfl) (fun h => (hpost '}' h).2.1 rfl)
    simp only [extract_json_from_text, hwrap, hsfW, hsbW, Option.none_bind,
      Option.some_bind, h1]
  · simp only [extract_json_from_text, ht1, searchFence_hBP t.data ht2,
      searchBraces_hBP t.data ht2, Option.none_bind]

/-- C1 counterexample: `42` contains no brace-delimited substring, yet
`extract_json_from_text` returns the parsed number via the first
strategy instead of raising the terminal parse error. -/
theorem extract_json_no_brace_counterexample :
    extract_json_from_text "42" = Except.ok (PyJson.num 42) := by rfl

/-- C1 witness: the object with body `"a": 1`, bare, fenced and
prose-wrapped, plus the brace-free text `no json here`. -/
theorem extract_json_strategies_witness :
    extract_json_from_text (String.mk ('{' :: (("\"a\": 1").data ++ ['}']))) =
      .ok (PyJson.obj [("a", PyJson.num 1)]) ∧
    extract_json_from_text ("```json\n" ++
        String.mk ('{' :: (("\"a\": 1").data ++ ['}'])) ++ "\n```") =
      .ok (PyJson.obj [("a", PyJson.num 1)]) ∧
    extract_json_from_text ("Here is the result: " ++
        String.mk ('{' :: (("\"a\": 1").data ++ ['}'])) ++ " Thanks!") =
      .ok (PyJson.obj [("a", PyJson.num 1)]) ∧
    extract_json_from_text "no json here" =
      .error ("Could not extract valid JSON from response: " ++
        takeFirst 200 "no json here" ++ "...") :=
  extract_json_strategies (("\"a\": 1").data) "Here is the result: "
    " Thanks!" "no json here" (PyJson.obj [("a", PyJson.num 1)])
    (by decide) (by rfl) (by decide) (by decide) (by rfl) (by rfl) (by rfl)
